import Mathlib

/-!
Verification development for the PDF document-comparison diff pipeline.

The embedding below models, in order:
* the text tokenizers and the LCS-based diff core of the `diff` library
  (external to the repository, so modelled from the specification),
* the worker-side diff computation (`src/workers/diffWorker.ts`) and the
  inline main-thread fallback (`src/App.tsx`),
* the PDF text extraction loop (`extractTextFromPdf` in `src/App.tsx`),
* the mode selector and the job-coordination state machine of `App.tsx`
  (`compare`, `handleMessage`, `handleError`).

Strings are modelled as lists of characters (`Str`), numbers appearing in
page geometry as rationals.
-/

namespace DocCompare

/-- Text is modelled as a list of characters. -/
abbrev Str := List Char

/-- Diff granularity, from `type DiffMode` in `src/App.tsx`. -/
inductive DiffMode where
  | word
  | paragraph
  | sentence
deriving DecidableEq, Repr

/-- Segment classification, from `type DiffSegmentType` in `src/App.tsx`. -/
inductive DiffSegmentType where
  | unchanged
  | added
  | removed
deriving DecidableEq, Repr

/-- One segment of the linear text diff, from `type DiffSegment` in `src/App.tsx`. -/
structure DiffSegment where
  value : Str
  type : DiffSegmentType
deriving DecidableEq, Repr

/-- Modelled from the spec: split a character list into maximal runs of
characters that agree on the classifying predicate `p` (used with
whitespace vs. non-whitespace for word tokenization). Concatenating the
runs restores the input. -/
def chunkRuns (p : Char → Bool) : List Char → List (List Char)
  | [] => []
  | c :: cs =>
      match chunkRuns p cs with
      | [] => [[c]]
      | (d :: run) :: runs =>
          if p c = p d then (c :: d :: run) :: runs
          else [c] :: (d :: run) :: runs
      | [] :: runs => [c] :: runs

/-- Modelled from the spec: split a character list into chunks, cutting
immediately after every character satisfying `p` (used for line and
sentence tokenization). Concatenating the chunks restores the input. -/
def splitAfter (p : Char → Bool) : List Char → List (List Char)
  | [] => []
  | c :: cs =>
      if p c then [c] :: splitAfter p cs
      else
        match splitAfter p cs with
        | [] => [[c]]
        | run :: runs => (c :: run) :: runs

/-- Modelled from the spec: word-level tokenization splits on whitespace,
keeping whitespace runs so the tokens partition the input. -/
def tokenizeWords (s : Str) : List Str :=
  chunkRuns (fun c => c.isWhitespace) s

/-- Modelled from the spec: paragraph-level tokenization (the `diffLines`
granularity) splits on line boundaries, each newline staying with its line. -/
def tokenizeLines (s : Str) : List Str :=
  splitAfter (fun c => c = '\n') s

/-- Modelled from the spec: sentence-level tokenization splits after
sentence-terminal punctuation. -/
def tokenizeSentences (s : Str) : List Str :=
  splitAfter (fun c => c = '.' || c = '!' || c = '?') s

/-- One element-level component of an alignment: a pair matched as common
(keeping both sides' values), an element only in the old sequence, or an
element only in the new sequence. -/
inductive DiffPart (α : Type) where
  | common (oldVal newVal : α)
  | removed (val : α)
  | added (val : α)
deriving DecidableEq, Repr

/-- Modelled from the spec: length of a longest common subsequence of two
sequences under the equality predicate `eq` (the cost function of the
LCS-based alignment used by the `diff` library). -/
def lcsLen (eq : α → α → Bool) : List α → List α → Nat
  | [], _ => 0
  | _ :: _, [] => 0
  | x :: xs, y :: ys =>
      if eq x y then lcsLen eq xs ys + 1
      else max (lcsLen eq xs (y :: ys)) (lcsLen eq (x :: xs) ys)
termination_by xs ys => xs.length + ys.length
decreasing_by all_goals simp_arith

/-- Modelled from the spec: the LCS-based sequence alignment of the `diff`
library, producing element-level common/removed/added components in
original order, covering both inputs. Removals are emitted before
additions at points of divergence, matching the conventional diff order. -/
def diffCore (eq : α → α → Bool) : List α → List α → List (DiffPart α)
  | [], ys => ys.map DiffPart.added
  | x :: xs, [] => DiffPart.removed x :: diffCore eq xs []
  | x :: xs, y :: ys =>
      if eq x y then DiffPart.common x y :: diffCore eq xs ys
      else if lcsLen eq (x :: xs) ys ≤ lcsLen eq xs (y :: ys) then
        DiffPart.removed x :: diffCore eq xs (y :: ys)
      else
        DiffPart.added y :: diffCore eq (x :: xs) ys
termination_by xs ys => xs.length + ys.length
decreasing_by all_goals simp_arith

/-- The old-side elements of an alignment, in order: values of common and
removed components. -/
def partOldVals : List (DiffPart α) → List α
  | [] => []
  | DiffPart.common o _ :: ps => o :: partOldVals ps
  | DiffPart.removed v :: ps => v :: partOldVals ps
  | DiffPart.added _ :: ps => partOldVals ps

/-- The new-side elements of an alignment, in order: values of common and
added components. -/
def partNewVals : List (DiffPart α) → List α
  | [] => []
  | DiffPart.common _ n :: ps => n :: partNewVals ps
  | DiffPart.removed _ :: ps => partNewVals ps
  | DiffPart.added v :: ps => v :: partNewVals ps

/-- The values of removed components, in order. -/
def removedVals : List (DiffPart α) → List α
  | [] => []
  | DiffPart.removed v :: ps => v :: removedVals ps
  | _ :: ps => removedVals ps

/-- The values of added components, in order. -/
def addedVals : List (DiffPart α) → List α
  | [] => []
  | DiffPart.added v :: ps => v :: addedVals ps
  | _ :: ps => addedVals ps

/-- The old-side values of common components, in order. -/
def commonOldVals : List (DiffPart α) → List α
  | [] => []
  | DiffPart.common o _ :: ps => o :: commonOldVals ps
  | _ :: ps => commonOldVals ps

/-- The new-side values of common components, in order. -/
def commonNewVals : List (DiffPart α) → List α
  | [] => []
  | DiffPart.common _ n :: ps => n :: commonNewVals ps
  | _ :: ps => commonNewVals ps

/-- Convert one alignment component into a text-diff segment. As in the
`diff` library, the value of a common run is taken from the new side. -/
def partToSegment : DiffPart Str → DiffSegment
  | DiffPart.common _ n => ⟨n, DiffSegmentType.unchanged⟩
  | DiffPart.removed v => ⟨v, DiffSegmentType.removed⟩
  | DiffPart.added v => ⟨v, DiffSegmentType.added⟩

/-- Merge adjacent segments of the same kind, concatenating their values,
so the output consists of maximal unchanged/added/removed runs. -/
def mergeSegments : List DiffSegment → List DiffSegment
  | [] => []
  | s :: ss =>
      match mergeSegments ss with
      | [] => [s]
      | t :: ts =>
          if s.type = t.type then ⟨s.value ++ t.value, s.type⟩ :: ts
          else s :: t :: ts

/-- Concatenation of the values of the segments whose kind is unchanged or
removed: the old-side reconstruction of a segment sequence. -/
def segmentsOldText : List DiffSegment → Str
  | [] => []
  | s :: ss =>
      (if s.type = DiffSegmentType.added then [] else s.value) ++ segmentsOldText ss

/-- Concatenation of the values of the segments whose kind is unchanged or
added: the new-side reconstruction of a segment sequence. -/
def segmentsNewText : List DiffSegment → Str
  | [] => []
  | s :: ss =>
      (if s.type = DiffSegmentType.removed then [] else s.value) ++ segmentsNewText ss

/-- Token equality used by the text diff: plain string equality. -/
def strEq (a b : Str) : Bool := a == b

/-- Modelled from the spec: the shared LCS diff of the `diff` library over
a chosen tokenization `tok`. Equal inputs are consumed entirely by the
initial common scan and short-circuit to a single unchanged component;
otherwise the element-level alignment is merged into maximal runs. -/
def diffBy (tok : Str → List Str) (a b : Str) : List DiffSegment :=
  if a = b then [⟨b, DiffSegmentType.unchanged⟩]
  else mergeSegments ((diffCore strEq (tok a) (tok b)).map partToSegment)

/-- Modelled from the spec: `diffWords` from the `diff` library. -/
def diffWords (a b : Str) : List DiffSegment := diffBy tokenizeWords a b

/-- Modelled from the spec: `diffLines` from the `diff` library. -/
def diffLines (a b : Str) : List DiffSegment := diffBy tokenizeLines a b

/-- Modelled from the spec: `diffSentences` from the `diff` library. -/
def diffSentences (a b : Str) : List DiffSegment := diffBy tokenizeSentences a b

/-- The text-diff dispatch performed by the worker
(`src/workers/diffWorker.ts`, lines 53-58). -/
def workerTextDiff (text1 text2 : Str) (mode : DiffMode) : List DiffSegment :=
  match mode with
  | DiffMode.sentence => diffSentences text1 text2
  | DiffMode.paragraph => diffLines text1 text2
  | DiffMode.word => diffWords text1 text2

/-- A token's bounding box in viewport fractions, from `type NormalizedRect`
in `src/App.tsx`. -/
structure NormalizedRect where
  x : ℚ
  y : ℚ
  width : ℚ
  height : ℚ
deriving DecidableEq, Repr

/-- One positioned text token, from `type PdfToken` in `src/App.tsx`. -/
structure PdfToken where
  text : Str
  pageIndex : Nat
  itemIndex : Nat
  absoluteIndex : Nat
  rect : NormalizedRect
deriving DecidableEq, Repr

/-- The comparator passed to `diffArrays`: equality is decided solely by
the `text` field (`(left, right) => left.text === right.text`). -/
def tokenComparator (left right : PdfToken) : Bool := left.text == right.text

/-- `diffArrays(tokens1, tokens2, { comparator })` as called by the worker
and by the inline fallback, at element level. -/
def diffArraysByText (tokens1 tokens2 : List PdfToken) : List (DiffPart PdfToken) :=
  diffCore tokenComparator tokens1 tokens2

/-- The worker's removed-index list: `absoluteIndex` of every token in a
removed run, in order (`diffWorker.ts`, lines 67-73). -/
def removedTokenIndexList (tokens1 tokens2 : List PdfToken) : List Nat :=
  (removedVals (diffArraysByText tokens1 tokens2)).map (fun t => t.absoluteIndex)

/-- The worker's added-index list: `absoluteIndex` of every token in an
added run, in order (`diffWorker.ts`, lines 67-73). -/
def addedTokenIndexList (tokens1 tokens2 : List PdfToken) : List Nat :=
  (addedVals (diffArraysByText tokens1 tokens2)).map (fun t => t.absoluteIndex)

/-- The structured result payload assembled by the worker, from
`type DiffWorkerPayload` in `src/workers/diffWorker.ts`. -/
structure DiffWorkerPayload where
  textDiff : List DiffSegment
  removedTokenIndexes : List Nat
  addedTokenIndexes : List Nat
deriving DecidableEq, Repr

/-- The whole computation of the worker's `onmessage` success path
(`src/workers/diffWorker.ts`, lines 49-80). -/
def workerCompute (text1 text2 : Str) (tokens1 tokens2 : List PdfToken)
    (mode : DiffMode) : DiffWorkerPayload :=
  { textDiff := workerTextDiff text1 text2 mode
    removedTokenIndexes := removedTokenIndexList tokens1 tokens2
    addedTokenIndexes := addedTokenIndexList tokens1 tokens2 }

/-- The inline main-thread fallback computed when the worker is
unavailable (`src/App.tsx`, lines 509-533): the same text diff, and the
removed/added indexes accumulated into `Set`s. -/
def inlineFallback (text1 text2 : Str) (tokens1 tokens2 : List PdfToken)
    (mode : DiffMode) : List DiffSegment × Finset Nat × Finset Nat :=
  let textDiff :=
    match mode with
    | DiffMode.sentence => diffSentences text1 text2
    | DiffMode.paragraph => diffLines text1 text2
    | DiffMode.word => diffWords text1 text2
  let tokenDiff := diffArraysByText tokens1 tokens2
  let removed := tokenDiff.foldl
    (fun s p =>
      match p with
      | DiffPart.removed t => insert t.absoluteIndex s
      | _ => s) ∅
  let added := tokenDiff.foldl
    (fun s p =>
      match p with
      | DiffPart.added t => insert t.absoluteIndex s
      | _ => s) ∅
  (textDiff, removed, added)

/-- A page viewport at the reference scale 1.0; also the shape of one
`pageMetrics` entry (`{width, height}`). -/
structure Viewport where
  width : ℚ
  height : ℚ
deriving DecidableEq, Repr

/-- One raw text item of a page's text content. `hasStr` models whether
the runtime item carries a `str` field (a `TextItem`, as opposed to marked
content). The geometry projection `viewport.convertToViewportRectangle`
is performed by the external pdf.js library, so the item carries the four
viewport-space coordinates that call produces. -/
structure RawTextItem where
  hasStr : Bool
  str : Str
  rawX1 : ℚ
  rawY1 : ℚ
  rawX2 : ℚ
  rawY2 : ℚ
deriving DecidableEq, Repr

/-- One page of a document, as seen by the extraction loop. A page either
fails before its viewport is obtained (`getPage`/`getViewport` throws),
fails after the viewport was obtained and its metrics entry pushed
(`getTextContent` throws), or yields its viewport and raw items. -/
inductive PageSource where
  | failEarly
  | failLate (viewport : Viewport)
  | ok (viewport : Viewport) (items : List RawTextItem)
deriving DecidableEq, Repr

/-- The result of extracting one document, from `type PdfExtraction` in
`src/App.tsx`. -/
structure PdfExtraction where
  tokens : List PdfToken
  fullText : Str
  pageMetrics : List Viewport
deriving DecidableEq, Repr

/-- The non-whitespace runs of a character list. -/
def wordsOf (s : Str) : List Str :=
  (chunkRuns (fun c => c.isWhitespace) s).filter
    (fun r =>
      match r.head? with
      | some c => !c.isWhitespace
      | none => false)

/-- `str.replace(/\s+/g, ' ').trim()` from `src/App.tsx` line 116: collapse
internal whitespace runs to single spaces and trim the ends. -/
def collapseWs (s : Str) : Str :=
  List.intercalate [' '] (wordsOf s)

/-- What the item loop body does with one raw item. -/
inductive ItemOutcome where
  | notText
  | skipped
  | token (text : Str) (rect : NormalizedRect)
deriving DecidableEq, Repr

/-- The per-item body of the extraction loop (`src/App.tsx`, lines
110-182): normalize the text, compute and clamp the viewport rectangle,
and either skip the item or produce its text and normalized rectangle.
`notText` is the `!('str' in item)` early return, which does not advance
the per-page item counter; `skipped` outcomes do. -/
def processItem (viewport : Viewport) (item : RawTextItem) : ItemOutcome :=
  if !item.hasStr then ItemOutcome.notText
  else
    let value := collapseWs item.str
    if value = [] then ItemOutcome.skipped
    else
      let minX := min item.rawX1 item.rawX2
      let minY := min item.rawY1 item.rawY2
      let maxX := max item.rawX1 item.rawX2
      let maxY := max item.rawY1 item.rawY2
      let width := maxX - minX
      let height := maxY - minY
      if width ≤ 0 ∨ height ≤ 0 then ItemOutcome.skipped
      else
        let clampedMinX := max 0 (min viewport.width minX)
        let clampedMinY := max 0 (min viewport.height minY)
        let clampedMaxX := max clampedMinX (min viewport.width maxX)
        let clampedMaxY := max clampedMinY (min viewport.height maxY)
        let normalizedRect : NormalizedRect :=
          { x := if viewport.width = 0 then 0 else clampedMinX / viewport.width
            y := if viewport.height = 0 then 0 else clampedMinY / viewport.height
            width :=
              if viewport.width = 0 then 0
              else (clampedMaxX - clampedMinX) / viewport.width
            height :=
              if viewport.height = 0 then 0
              else (clampedMaxY - clampedMinY) / viewport.height }
        if normalizedRect.width ≤ 0 ∨ normalizedRect.height ≤ 0 then
          ItemOutcome.skipped
        else ItemOutcome.token value normalizedRect

/-- The item loop of one page: thread the per-page item counter and the
document-wide `absoluteIndex` counter, keeping only surviving tokens. -/
def processItems (pageIndex : Nat) (viewport : Viewport) :
    List RawTextItem → Nat → Nat → List PdfToken
  | [], _, _ => []
  | item :: rest, itemIndex, absoluteIndex =>
      match processItem viewport item with
      | ItemOutcome.notText => processItems pageIndex viewport rest itemIndex absoluteIndex
      | ItemOutcome.skipped =>
          processItems pageIndex viewport rest (itemIndex + 1) absoluteIndex
      | ItemOutcome.token text rect =>
          { text := text, pageIndex := pageIndex, itemIndex := itemIndex,
            absoluteIndex := absoluteIndex, rect := rect } ::
            processItems pageIndex viewport rest (itemIndex + 1) (absoluteIndex + 1)

/-- The page loop of `extractTextFromPdf` (`src/App.tsx`, lines 99-186):
accumulate tokens and page metrics across pages. A page failing early
contributes neither tokens nor a metrics entry; a page failing late
contributes its metrics entry but no tokens; every failure is caught and
the remaining pages are still processed. -/
def processPages : List PageSource → Nat → Nat → List PdfToken × List Viewport
  | [], _, _ => ([], [])
  | PageSource.failEarly :: rest, pageIndex, absoluteIndex =>
      processPages rest (pageIndex + 1) absoluteIndex
  | PageSource.failLate viewport :: rest, pageIndex, absoluteIndex =>
      let next := processPages rest (pageIndex + 1) absoluteIndex
      (next.1, viewport :: next.2)
  | PageSource.ok viewport items :: rest, pageIndex, absoluteIndex =>
      let pageTokens := processItems pageIndex viewport items 0 absoluteIndex
      let next := processPages rest (pageIndex + 1) (absoluteIndex + pageTokens.length)
      (pageTokens ++ next.1, viewport :: next.2)

/-- The extraction error message thrown when no text survives
(`src/App.tsx`, lines 188-192). -/
def noSearchableTextMessage : String :=
  "No searchable text found. The PDF may be scanned, encrypted, or corrupted."

/-- `extractTextFromPdf` (`src/App.tsx`, lines 89-202): process every
page, fail with the extraction error if no text token survived, and
otherwise join the surviving token texts with single spaces. -/
def extractTextFromPdf (pages : List PageSource) : Except String PdfExtraction :=
  if ((processPages pages 0 0).1.map (fun t => t.text)).isEmpty then
    Except.error noSearchableTextMessage
  else
    Except.ok
      { tokens := (processPages pages 0 0).1
        fullText := List.intercalate [' '] ((processPages pages 0 0).1.map (fun t => t.text))
        pageMetrics := (processPages pages 0 0).2 }

/-- `WORD_DIFF_THRESHOLD` from `src/App.tsx` line 34. -/
def WORD_DIFF_THRESHOLD : Nat := 200000

/-- `PARAGRAPH_DIFF_THRESHOLD` from `src/App.tsx` line 35. -/
def PARAGRAPH_DIFF_THRESHOLD : Nat := 900000

/-- `ABSOLUTE_DIFF_LIMIT` from `src/App.tsx` line 36. -/
def ABSOLUTE_DIFF_LIMIT : Nat := 2600000

/-- The advisory note shown for sentence-level comparisons
(`src/App.tsx`, lines 482-484). -/
def sentenceNote : String :=
  "Large documents are compared at sentence level for faster results. Highlights may be less granular."

/-- The advisory note shown for paragraph-level comparisons
(`src/App.tsx`, lines 487-489). -/
def paragraphNote : String :=
  "Medium documents are compared at paragraph level to balance speed and detail."

/-- The too-large error message (`src/App.tsx`, lines 468-470). The source
formats the length with `toLocaleString`; the model uses plain decimal
digits, which only affects the separator characters of the number. -/
def tooLargeMessage (totalLength : Nat) : String :=
  "Documents are too large for an in-browser comparison (combined text length " ++
    toString totalLength ++ " characters). Try comparing smaller sections."

/-- The generic message installed by the worker `error` event listener
(`src/App.tsx`, line 413). -/
def workerFaultMessage : String :=
  "Unable to complete comparison in background worker."

/-- The visible React state touched by the comparison lifecycle: the diff
parts, the two highlight index sets, the error banner, the advisory note
and the in-progress flag (`src/App.tsx`, lines 364-369). -/
structure VisibleState where
  diffParts : List DiffSegment
  removedTokenIndexes : Finset Nat
  addedTokenIndexes : Finset Nat
  error : Option String
  comparisonNote : Option String
  isComparing : Bool
deriving DecidableEq

/-- The coordinator's full state: the visible state plus the refs holding
the pending job id and the monotone job counter (`src/App.tsx`,
lines 372-373). -/
structure AppState where
  visible : VisibleState
  pendingJobId : Option Nat
  jobCounter : Nat
deriving DecidableEq

/-- A message posted back by the worker, from `type DiffWorkerResponse`. -/
inductive WorkerResponse where
  | result (jobId : Nat) (payload : DiffWorkerPayload)
  | error (jobId : Nat) (payload : String)
deriving DecidableEq

/-- The job id carried by a worker response. -/
def WorkerResponse.jobId : WorkerResponse → Nat
  | WorkerResponse.result jobId _ => jobId
  | WorkerResponse.error jobId _ => jobId

/-- The `handleMessage` listener (`src/App.tsx`, lines 382-403): a
response whose job id is not the currently pending one is discarded;
otherwise the pending id is cleared and the visible state is replaced by
the response's result or error. -/
def handleMessage (st : AppState) (response : WorkerResponse) : AppState :=
  if st.pendingJobId ≠ some response.jobId then st
  else
    match response with
    | WorkerResponse.result _ payload =>
        { st with
          pendingJobId := none
          visible :=
            { st.visible with
              diffParts := payload.textDiff
              removedTokenIndexes := payload.removedTokenIndexes.toFinset
              addedTokenIndexes := payload.addedTokenIndexes.toFinset
              error := none
              isComparing := false } }
    | WorkerResponse.error _ message =>
        { st with
          pendingJobId := none
          visible :=
            { st.visible with
              diffParts := []
              removedTokenIndexes := ∅
              addedTokenIndexes := ∅
              error := some message
              isComparing := false } }

/-- The `handleError` listener (`src/App.tsx`, lines 405-416): a
worker-level failure with no structured payload. It is a no-op when no
job is pending; otherwise it clears the results, installs the generic
worker-fault message and clears the pending id. -/
def handleError (st : AppState) : AppState :=
  if st.pendingJobId = none then st
  else
    { st with
      pendingJobId := none
      visible :=
        { st.visible with
          diffParts := []
          removedTokenIndexes := ∅
          addedTokenIndexes := ∅
          error := some workerFaultMessage
          isComparing := false } }

/-- The job-submission step of `compare` (`src/App.tsx`, lines 503-507):
increment the job counter, record the new id as pending. -/
def submitJob (st : AppState) : AppState :=
  { st with
    jobCounter := st.jobCounter + 1
    pendingJobId := some (st.jobCounter + 1) }

/-- The id given to the job submitted from state `st`. -/
def submittedJobId (st : AppState) : Nat := st.jobCounter + 1

/-- The request posted to the worker, from `type DiffWorkerRequest` in
`src/App.tsx`. -/
structure DiffWorkerRequest where
  jobId : Nat
  text1 : Str
  text2 : Str
  tokens1 : List PdfToken
  tokens2 : List PdfToken
  mode : DiffMode
deriving DecidableEq, Repr

/-- The size-dependent part of `compare` after both extractions succeed
(`src/App.tsx`, lines 465-507, worker path): reject over the absolute
limit with the too-large error and no job, otherwise pick the mode and
advisory note from the combined text length and submit a job carrying
that mode. -/
def compareAfterExtraction (st : AppState) (extraction1 extraction2 : PdfExtraction) :
    AppState × Option DiffWorkerRequest :=
  let totalLength := extraction1.fullText.length + extraction2.fullText.length
  if totalLength > ABSOLUTE_DIFF_LIMIT then
    ({ st with
        visible :=
          { st.visible with
            error := some (tooLargeMessage totalLength)
            diffParts := []
            removedTokenIndexes := ∅
            addedTokenIndexes := ∅
            isComparing := false
            comparisonNote := none } },
      none)
  else
    let modeAndNote : DiffMode × Option String :=
      if totalLength > PARAGRAPH_DIFF_THRESHOLD then
        (DiffMode.sentence, some sentenceNote)
      else if totalLength > WORD_DIFF_THRESHOLD then
        (DiffMode.paragraph, some paragraphNote)
      else (DiffMode.word, none)
    let st' := { st with visible := { st.visible with comparisonNote := modeAndNote.2 } }
    (submitJob st',
      some
        { jobId := submittedJobId st'
          text1 := extraction1.fullText
          text2 := extraction2.fullText
          tokens1 := extraction1.tokens
          tokens2 := extraction2.tokens
          mode := modeAndNote.1 })

/-- Small demo extraction used to instantiate theorems with hypotheses. -/
def demoExtraction : PdfExtraction :=
  { tokens := [{ text := ['h', 'i'], pageIndex := 0, itemIndex := 0,
                 absoluteIndex := 0, rect := ⟨0, 0, 1, 1⟩ }]
    fullText := ['h', 'i']
    pageMetrics := [⟨100, 100⟩] }

/-- A small concrete coordinator state used to instantiate theorems with
hypotheses. -/
def demoAppState : AppState :=
  { visible :=
      { diffParts := []
        removedTokenIndexes := ∅
        addedTokenIndexes := ∅
        error := none
        comparisonNote := none
        isComparing := true }
    pendingJobId := some 1
    jobCounter := 1 }

/-- Token of document A used in the C3 counterexample. -/
def cexTokenA : PdfToken :=
  { text := ['a'], pageIndex := 0, itemIndex := 0, absoluteIndex := 0,
    rect := ⟨0, 0, 1, 1⟩ }

/-- Token of document B used in the C3 counterexample. -/
def cexTokenB : PdfToken :=
  { text := ['b'], pageIndex := 0, itemIndex := 0, absoluteIndex := 0,
    rect := ⟨0, 0, 1, 1⟩ }

/-- An empty worker payload used by witnesses. -/
def emptyPayload : DiffWorkerPayload :=
  { textDiff := [], removedTokenIndexes := [], addedTokenIndexes := [] }

/-- The metrics entry a page contributes: its viewport, unless the page
fails before the viewport is obtained. -/
def pageViewportOf : PageSource → Option Viewport
  | PageSource.failEarly => none
  | PageSource.failLate viewport => some viewport
  | PageSource.ok viewport _ => some viewport

/-- The raw item used in the extraction demos: the word "hi" at
viewport-space rectangle corners (0, 0) and (10, 10). -/
def demoItem : RawTextItem :=
  { hasStr := true, str := ['h', 'i'], rawX1 := 0, rawY1 := 0, rawX2 := 10,
    rawY2 := 10 }

/-- The viewport used in the extraction demos. -/
def demoViewport : Viewport := { width := 100, height := 100 }

/-- Demo document: its first page fails before its viewport is obtained,
its second page carries one surviving token. -/
def demoPages : List PageSource :=
  [PageSource.failEarly, PageSource.ok demoViewport [demoItem]]

/-- The extraction the code produces for `demoPages`: one token on page
index 1, and a single metrics entry despite the document having two
pages. -/
def demoOkExtraction : PdfExtraction :=
  { tokens := [{ text := ['h', 'i'], pageIndex := 1, itemIndex := 0,
                 absoluteIndex := 0,
                 rect := { x := 0, y := 0, width := 1 / 10, height := 1 / 10 } }]
    fullText := ['h', 'i']
    pageMetrics := [demoViewport] }

theorem chunkRuns_join (p : Char → Bool) (l : List Char) :
    (chunkRuns p l).flatten = l := by
  induction l with
  | nil => simp [chunkRuns]
  | cons c cs ih =>
      rw [chunkRuns]
      cases hs : chunkRuns p cs with
      | nil =>
          rw [hs] at ih
          simp only [List.flatten_nil] at ih
          simp [← ih]
      | cons run runs =>
          rw [hs] at ih
          cases run with
          | nil =>
              simp only [List.flatten_cons, List.nil_append] at ih
              simp [← ih]
          | cons d run =>
              simp only [List.flatten_cons] at ih
              by_cases hp : p c = p d
              · simp only [hp, if_pos, List.flatten_cons]
                simp [← ih]
              · simp only [hp, if_neg, List.flatten_cons]
                simp [← ih]

theorem splitAfter_join (p : Char → Bool) (l : List Char) :
    (splitAfter p l).flatten = l := by
  induction l with
  | nil => simp [splitAfter]
  | cons c cs ih =>
      by_cases h : p c
      · simp [splitAfter, h, ih]
      · simp only [splitAfter, h, if_neg, Bool.false_eq_true]
        cases hs : splitAfter p cs with
        | nil =>
            rw [hs] at ih
            simp only [List.flatten_nil] at ih
            simp [← ih]
        | cons run runs =>
            rw [hs] at ih
            simp only [List.flatten_cons] at ih ⊢
            simp [← ih]

theorem tokenizeWords_join (s : Str) : (tokenizeWords s).flatten = s :=
  chunkRuns_join _ s

theorem tokenizeLines_join (s : Str) : (tokenizeLines s).flatten = s :=
  splitAfter_join _ s

theorem tokenizeSentences_join (s : Str) : (tokenizeSentences s).flatten = s :=
  splitAfter_join _ s

theorem diffCore_oldVals (eq : α → α → Bool) (xs ys : List α) :
    partOldVals (diffCore eq xs ys) = xs := by
  induction xs, ys using diffCore.induct eq with
  | case1 ys =>
      simp only [diffCore]
      induction ys with
      | nil => rfl
      | cons y ys ih => simpa [partOldVals] using ih
  | case2 x xs ih => simpa [diffCore, partOldVals] using ih
  | case3 x xs y ys h ih => simp [diffCore, h, partOldVals, ih]
  | case4 x xs y ys h h' ih => simp [diffCore, h, h', partOldVals, ih]
  | case5 x xs y ys h h' ih => simp [diffCore, h, h', partOldVals, ih]

theorem diffCore_newVals (eq : α → α → Bool) (xs ys : List α) :
    partNewVals (diffCore eq xs ys) = ys := by
  induction xs, ys using diffCore.induct eq with
  | case1 ys =>
      simp only [diffCore]
      induction ys with
      | nil => rfl
      | cons y ys ih => simpa [partNewVals] using ih
  | case2 x xs ih => simpa [diffCore, partNewVals] using ih
  | case3 x xs y ys h ih => simp [diffCore, h, partNewVals, ih]
  | case4 x xs y ys h h' ih => simp [diffCore, h, h', partNewVals, ih]
  | case5 x xs y ys h h' ih => simp [diffCore, h, h', partNewVals, ih]

theorem diffCore_common_eq (eq : α → α → Bool) (xs ys : List α) :
    ∀ o n, DiffPart.common o n ∈ diffCore eq xs ys → eq o n = true := by
  induction xs, ys using diffCore.induct eq with
  | case1 ys =>
      intro o n hmem
      simp only [diffCore, List.mem_map] at hmem
      obtain ⟨y, -, hy⟩ := hmem
      cases hy
  | case2 x xs ih =>
      intro o n hmem
      simp only [diffCore, List.mem_cons] at hmem
      rcases hmem with h | h
      · cases h
      · exact ih o n h
  | case3 x xs y ys h ih =>
      intro o n hmem
      simp only [diffCore, h, if_pos, List.mem_cons] at hmem
      rcases hmem with heq | hmem
      · cases heq; exact h
      · exact ih o n hmem
  | case4 x xs y ys h h' ih =>
      intro o n hmem
      rw [diffCore, if_neg h, if_pos h'] at hmem
      rcases List.mem_cons.mp hmem with heq | hmem'
      · cases heq
      · exact ih o n hmem'
  | case5 x xs y ys h h' ih =>
      intro o n hmem
      rw [diffCore, if_neg h, if_neg h'] at hmem
      rcases List.mem_cons.mp hmem with heq | hmem'
      · cases heq
      · exact ih o n hmem'

theorem segmentsOldText_merge (ss : List DiffSegment) :
    segmentsOldText (mergeSegments ss) = segmentsOldText ss := by
  induction ss with
  | nil => rfl
  | cons s ss ih =>
      rw [mergeSegments]
      cases hm : mergeSegments ss with
      | nil =>
          rw [hm] at ih
          simp [segmentsOldText, ← ih]
      | cons t ts =>
          rw [hm] at ih
          by_cases hty : s.type = t.type
          · simp only [hty, if_pos]
            by_cases hadd : t.type = DiffSegmentType.added
            · simp [segmentsOldText, hty, hadd, ← ih]
            · simp [segmentsOldText, hty, hadd, ← ih]
          · simp [hty, segmentsOldText, ← ih]

theorem segmentsNewText_merge (ss : List DiffSegment) :
    segmentsNewText (mergeSegments ss) = segmentsNewText ss := by
  induction ss with
  | nil => rfl
  | cons s ss ih =>
      rw [mergeSegments]
      cases hm : mergeSegments ss with
      | nil =>
          rw [hm] at ih
          simp [segmentsNewText, ← ih]
      | cons t ts =>
          rw [hm] at ih
          by_cases hty : s.type = t.type
          · simp only [hty, if_pos]
            by_cases hrem : t.type = DiffSegmentType.removed
            · simp [segmentsNewText, hty, hrem, ← ih]
            · simp [segmentsNewText, hty, hrem, ← ih]
          · simp [hty, segmentsNewText, ← ih]

theorem segmentsOldText_parts (parts : List (DiffPart Str))
    (hc : ∀ o n, DiffPart.common o n ∈ parts → o = n) :
    segmentsOldText (parts.map partToSegment) = (partOldVals parts).flatten := by
  induction parts with
  | nil => rfl
  | cons p ps ih =>
      have ih' := ih (fun o n hmem => hc o n (List.mem_cons_of_mem p hmem))
      cases p with
      | common o n =>
          have hon : o = n := hc o n (List.mem_cons_self _ _)
          simp [partToSegment, segmentsOldText, partOldVals, ih', hon]
      | removed v => simp [partToSegment, segmentsOldText, partOldVals, ih']
      | added v => simp [partToSegment, segmentsOldText, partOldVals, ih']

theorem segmentsNewText_parts (parts : List (DiffPart Str)) :
    segmentsNewText (parts.map partToSegment) = (partNewVals parts).flatten := by
  induction parts with
  | nil => rfl
  | cons p ps ih =>
      cases p with
      | common o n => simp [partToSegment, segmentsNewText, partNewVals, ih]
      | removed v => simp [partToSegment, segmentsNewText, partNewVals, ih]
      | added v => simp [partToSegment, segmentsNewText, partNewVals, ih]

theorem diffBy_oldText (tok : Str → List Str)
    (htok : ∀ s, (tok s).flatten = s) (a b : Str) :
    segmentsOldText (diffBy tok a b) = a := by
  unfold diffBy
  by_cases hab : a = b
  · simp [hab, segmentsOldText]
  · rw [if_neg hab, segmentsOldText_merge,
      segmentsOldText_parts _ (fun o n hmem => by
        have := diffCore_common_eq strEq (tok a) (tok b) o n hmem
        simpa [strEq] using this),
      diffCore_oldVals, htok]

theorem diffBy_newText (tok : Str → List Str)
    (htok : ∀ s, (tok s).flatten = s) (a b : Str) :
    segmentsNewText (diffBy tok a b) = b := by
  unfold diffBy
  by_cases hab : a = b
  · simp [hab, segmentsNewText]
  · rw [if_neg hab, segmentsNewText_merge, segmentsNewText_parts,
      diffCore_newVals, htok]

theorem workerTextDiff_oldText (text1 text2 : Str) (mode : DiffMode) :
    segmentsOldText (workerTextDiff text1 text2 mode) = text1 := by
  cases mode with
  | sentence => exact diffBy_oldText _ tokenizeSentences_join _ _
  | paragraph => exact diffBy_oldText _ tokenizeLines_join _ _
  | word => exact diffBy_oldText _ tokenizeWords_join _ _

theorem workerTextDiff_newText (text1 text2 : Str) (mode : DiffMode) :
    segmentsNewText (workerTextDiff text1 text2 mode) = text2 := by
  cases mode with
  | sentence => exact diffBy_newText _ tokenizeSentences_join _ _
  | paragraph => exact diffBy_newText _ tokenizeLines_join _ _
  | word => exact diffBy_newText _ tokenizeWords_join _ _

theorem foldl_insert_removed_mem (parts : List (DiffPart PdfToken))
    (s : Finset Nat) (x : Nat) :
    (x ∈ parts.foldl
      (fun s p =>
        match p with
        | DiffPart.removed t => insert t.absoluteIndex s
        | _ => s) s) ↔
      x ∈ s ∨ x ∈ (removedVals parts).map (fun t => t.absoluteIndex) := by
  induction parts generalizing s with
  | nil => simp [removedVals]
  | cons p ps ih =>
      cases p with
      | common o n => simp [List.foldl_cons, removedVals, ih]
      | removed v =>
          simp only [List.foldl_cons, removedVals, List.map_cons, List.mem_cons, ih,
            Finset.mem_insert]
          tauto
      | added v => simp [List.foldl_cons, removedVals, ih]

theorem foldl_insert_added_mem (parts : List (DiffPart PdfToken))
    (s : Finset Nat) (x : Nat) :
    (x ∈ parts.foldl
      (fun s p =>
        match p with
        | DiffPart.added t => insert t.absoluteIndex s
        | _ => s) s) ↔
      x ∈ s ∨ x ∈ (addedVals parts).map (fun t => t.absoluteIndex) := by
  induction parts generalizing s with
  | nil => simp [addedVals]
  | cons p ps ih =>
      cases p with
      | common o n => simp [List.foldl_cons, addedVals, ih]
      | removed v => simp [List.foldl_cons, addedVals, ih]
      | added v =>
          simp only [List.foldl_cons, addedVals, List.map_cons, List.mem_cons, ih,
            Finset.mem_insert]
          tauto

theorem count_commonOld_add_removed (parts : List (DiffPart α)) [DecidableEq α]
    (a : α) :
    (commonOldVals parts).count a + (removedVals parts).count a =
      (partOldVals parts).count a := by
  induction parts with
  | nil => rfl
  | cons p ps ih =>
      cases p with
      | common o n =>
          simp only [commonOldVals, removedVals, partOldVals, List.count_cons]
          split_ifs <;> omega
      | removed v =>
          simp only [commonOldVals, removedVals, partOldVals, List.count_cons]
          split_ifs <;> omega
      | added v => simp [commonOldVals, removedVals, partOldVals, ih]

theorem count_commonNew_add_added (parts : List (DiffPart α)) [DecidableEq α]
    (a : α) :
    (commonNewVals parts).count a + (addedVals parts).count a =
      (partNewVals parts).count a := by
  induction parts with
  | nil => rfl
  | cons p ps ih =>
      cases p with
      | common o n =>
          simp only [commonNewVals, addedVals, partNewVals, List.count_cons]
          split_ifs <;> omega
      | removed v => simp [commonNewVals, addedVals, partNewVals, ih]
      | added v =>
          simp only [commonNewVals, addedVals, partNewVals, List.count_cons]
          split_ifs <;> omega

theorem processItems_map_absoluteIndex (pageIndex : Nat) (viewport : Viewport)
    (items : List RawTextItem) (itemIndex absoluteIndex : Nat) :
    (processItems pageIndex viewport items itemIndex absoluteIndex).map
        (fun t => t.absoluteIndex) =
      List.range' absoluteIndex
        (processItems pageIndex viewport items itemIndex absoluteIndex).length := by
  induction items generalizing itemIndex absoluteIndex with
  | nil => simp [processItems]
  | cons item rest ih =>
      rw [processItems]
      cases processItem viewport item with
      | notText => exact ih _ _
      | skipped => exact ih _ _
      | token text rect => simp [List.range', ih]

theorem processPages_map_absoluteIndex (pages : List PageSource)
    (pageIndex absoluteIndex : Nat) :
    (processPages pages pageIndex absoluteIndex).1.map (fun t => t.absoluteIndex) =
      List.range' absoluteIndex (processPages pages pageIndex absoluteIndex).1.length := by
  induction pages generalizing pageIndex absoluteIndex with
  | nil => simp [processPages]
  | cons page rest ih =>
      cases page with
      | failEarly => rw [processPages]; exact ih _ _
      | failLate viewport => rw [processPages]; exact ih _ _
      | ok viewport items =>
          rw [processPages]
          simp only [List.map_append, List.length_append,
            processItems_map_absoluteIndex, ih]
          rw [List.range'_append_1, Nat.add_comm]

/-- C1: the diff granularity is a pure function of the combined text
length: above 2,600,000 the request fails with the too-large error and no
job is submitted; above 900,000 the mode is sentence-level with an
advisory note; above 200,000 the mode is paragraph-level with an advisory
note; otherwise the mode is word-level with no advisory. -/
theorem claim_C1_mode_selection (st : AppState)
    (extraction1 extraction2 : PdfExtraction) (n : Nat)
    (hn : n = extraction1.fullText.length + extraction2.fullText.length) :
    (2600000 < n →
      (compareAfterExtraction st extraction1 extraction2).2 = none ∧
      (compareAfterExtraction st extraction1 extraction2).1.visible.error =
        some (tooLargeMessage n) ∧
      (compareAfterExtraction st extraction1 extraction2).1.visible.diffParts = [] ∧
      (compareAfterExtraction st extraction1 extraction2).1.jobCounter = st.jobCounter) ∧
    (900000 < n → n ≤ 2600000 →
      (compareAfterExtraction st extraction1 extraction2).2 =
        some
          { jobId := st.jobCounter + 1
            text1 := extraction1.fullText
            text2 := extraction2.fullText
            tokens1 := extraction1.tokens
            tokens2 := extraction2.tokens
            mode := DiffMode.sentence } ∧
      (compareAfterExtraction st extraction1 extraction2).1.visible.comparisonNote =
        some sentenceNote) ∧
    (200000 < n → n ≤ 900000 →
      (compareAfterExtraction st extraction1 extraction2).2 =
        some
          { jobId := st.jobCounter + 1
            text1 := extraction1.fullText
            text2 := extraction2.fullText
            tokens1 := extraction1.tokens
            tokens2 := extraction2.tokens
            mode := DiffMode.paragraph } ∧
      (compareAfterExtraction st extraction1 extraction2).1.visible.comparisonNote =
        some paragraphNote) ∧
    (n ≤ 200000 →
      (compareAfterExtraction st extraction1 extraction2).2 =
        some
          { jobId := st.jobCounter + 1
            text1 := extraction1.fullText
            text2 := extraction2.fullText
            tokens1 := extraction1.tokens
            tokens2 := extraction2.tokens
            mode := DiffMode.word } ∧
      (compareAfterExtraction st extraction1 extraction2).1.visible.comparisonNote =
        none) := by
  subst hn
  refine ⟨fun h => ?_, fun h h' => ?_, fun h h' => ?_, fun h => ?_⟩ <;>
    simp only [compareAfterExtraction, ABSOLUTE_DIFF_LIMIT, PARAGRAPH_DIFF_THRESHOLD,
      WORD_DIFF_THRESHOLD, submitJob, submittedJobId, gt_iff_lt] <;>
    split_ifs <;>
    first
      | (exfalso; omega)
      | simp_all

/-- Witness for C1 at a concrete input: a tiny pair of extractions whose
combined length selects word mode with no advisory. -/
theorem claim_C1_mode_selection_witness :
    (compareAfterExtraction demoAppState demoExtraction demoExtraction).2 =
      some
        { jobId := 2
          text1 := demoExtraction.fullText
          text2 := demoExtraction.fullText
          tokens1 := demoExtraction.tokens
          tokens2 := demoExtraction.tokens
          mode := DiffMode.word } ∧
    (compareAfterExtraction demoAppState demoExtraction demoExtraction).1.visible.comparisonNote =
      none := by
  have h :=
    (claim_C1_mode_selection demoAppState demoExtraction demoExtraction 4
      (by decide)).2.2.2 (by decide)
  exact h

/-- C2: for every pair of input strings and every mode, the segments of
the text diff cover both inputs: the values of the unchanged-or-removed
segments concatenate to the old text and the values of the
unchanged-or-added segments concatenate to the new text. -/
theorem claim_C2_coverage (text1 text2 : Str) (mode : DiffMode) :
    segmentsOldText (workerTextDiff text1 text2 mode) = text1 ∧
    segmentsNewText (workerTextDiff text1 text2 mode) = text2 :=
  ⟨workerTextDiff_oldText text1 text2 mode, workerTextDiff_newText text1 text2 mode⟩

/-- C8: diffing a string against itself yields a single unchanged segment
carrying that string, in every mode. -/
theorem claim_C8_idempotence (a : Str) (mode : DiffMode) :
    workerTextDiff a a mode = [⟨a, DiffSegmentType.unchanged⟩] := by
  cases mode <;> simp [workerTextDiff, diffSentences, diffLines, diffWords, diffBy]

/-- C10: on identical inputs, the inline main-thread fallback produces the
same text-diff segments as the worker, and its removed/added index sets
are exactly the worker's index lists viewed as sets. -/
theorem claim_C10_fallback_equivalence (text1 text2 : Str)
    (tokens1 tokens2 : List PdfToken) (mode : DiffMode) :
    (inlineFallback text1 text2 tokens1 tokens2 mode).1 =
      (workerCompute text1 text2 tokens1 tokens2 mode).textDiff ∧
    (inlineFallback text1 text2 tokens1 tokens2 mode).2.1 =
      (workerCompute text1 text2 tokens1 tokens2 mode).removedTokenIndexes.toFinset ∧
    (inlineFallback text1 text2 tokens1 tokens2 mode).2.2 =
      (workerCompute text1 text2 tokens1 tokens2 mode).addedTokenIndexes.toFinset := by
  refine ⟨?_, ?_, ?_⟩
  · cases mode <;> rfl
  · ext x
    simp only [inlineFallback, workerCompute, foldl_insert_removed_mem,
      Finset.not_mem_empty, false_or, List.mem_toFinset, removedTokenIndexList]
  · ext x
    simp only [inlineFallback, workerCompute, foldl_insert_added_mem,
      Finset.not_mem_empty, false_or, List.mem_toFinset, addedTokenIndexList]

theorem removedVals_subset_oldVals (parts : List (DiffPart α)) :
    ∀ v ∈ removedVals parts, v ∈ partOldVals parts := by
  induction parts with
  | nil => intro v hv; cases hv
  | cons p ps ih =>
      intro v hv
      cases p with
      | common o n =>
          simp only [removedVals] at hv
          exact List.mem_cons_of_mem _ (ih v hv)
      | removed w =>
          simp only [removedVals, List.mem_cons] at hv
          rcases hv with rfl | hv
          · exact List.mem_cons_self _ _
          · exact List.mem_cons_of_mem _ (ih v hv)
      | added w =>
          simp only [removedVals] at hv
          exact ih v hv

theorem commonOldVals_subset_oldVals (parts : List (DiffPart α)) :
    ∀ v ∈ commonOldVals parts, v ∈ partOldVals parts := by
  induction parts with
  | nil => intro v hv; cases hv
  | cons p ps ih =>
      intro v hv
      cases p with
      | common o n =>
          simp only [commonOldVals, List.mem_cons] at hv
          rcases hv with rfl | hv
          · exact List.mem_cons_self _ _
          · exact List.mem_cons_of_mem _ (ih v hv)
      | removed w =>
          simp only [commonOldVals] at hv
          exact List.mem_cons_of_mem _ (ih v hv)
      | added w =>
          simp only [commonOldVals] at hv
          exact ih v hv

theorem addedVals_subset_newVals (parts : List (DiffPart α)) :
    ∀ v ∈ addedVals parts, v ∈ partNewVals parts := by
  induction parts with
  | nil => intro v hv; cases hv
  | cons p ps ih =>
      intro v hv
      cases p with
      | common o n =>
          simp only [addedVals] at hv
          exact List.mem_cons_of_mem _ (ih v hv)
      | removed w =>
          simp only [addedVals] at hv
          exact ih v hv
      | added w =>
          simp only [addedVals, List.mem_cons] at hv
          rcases hv with rfl | hv
          · exact List.mem_cons_self _ _
          · exact List.mem_cons_of_mem _ (ih v hv)

theorem commonNewVals_subset_newVals (parts : List (DiffPart α)) :
    ∀ v ∈ commonNewVals parts, v ∈ partNewVals parts := by
  induction parts with
  | nil => intro v hv; cases hv
  | cons p ps ih =>
      intro v hv
      cases p with
      | common o n =>
          simp only [commonNewVals, List.mem_cons] at hv
          rcases hv with rfl | hv
          · exact List.mem_cons_self _ _
          · exact List.mem_cons_of_mem _ (ih v hv)
      | removed w =>
          simp only [commonNewVals] at hv
          exact ih v hv
      | added w =>
          simp only [commonNewVals] at hv
          exact List.mem_cons_of_mem _ (ih v hv)

/-- C3 fails as stated: both documents number their tokens from zero, so
the integer index 0 can land in both sets. With document A holding only
the token "a" (absoluteIndex 0) and document B only the token "b"
(absoluteIndex 0), the alignment removes "a" and adds "b", and 0 is a
member of both index sets — their intersection is not empty. -/
theorem claim_C3_counterexample :
    removedTokenIndexList [cexTokenA] [cexTokenB] = [0] ∧
    addedTokenIndexList [cexTokenA] [cexTokenB] = [0] ∧
    0 ∈ removedTokenIndexList [cexTokenA] [cexTokenB] ∧
    0 ∈ addedTokenIndexList [cexTokenA] [cexTokenB] := by
  simp [removedTokenIndexList, addedTokenIndexList, diffArraysByText, diffCore,
    lcsLen, tokenComparator, cexTokenA, cexTokenB, removedVals, addedVals]

/-- C3 amended: the removed set draws its indexes only from document A's
tokens and the added set only from document B's; within each document,
provided its tokens' absolute indexes are pairwise distinct (as extraction
guarantees), no token that was part of an unchanged alignment run
contributes its index to its own document's set. As plain integer sets,
removed and added may still intersect, since both documents are numbered
from zero. -/
theorem claim_C3_amended_disjointness (tokens1 tokens2 : List PdfToken) :
    (∀ i ∈ removedTokenIndexList tokens1 tokens2,
        ∃ t ∈ tokens1, t.absoluteIndex = i) ∧
    (∀ i ∈ addedTokenIndexList tokens1 tokens2,
        ∃ t ∈ tokens2, t.absoluteIndex = i) ∧
    ((tokens1.map (fun t => t.absoluteIndex)).Nodup →
      ∀ t ∈ commonOldVals (diffArraysByText tokens1 tokens2),
        t.absoluteIndex ∉ removedTokenIndexList tokens1 tokens2) ∧
    ((tokens2.map (fun t => t.absoluteIndex)).Nodup →
      ∀ t ∈ commonNewVals (diffArraysByText tokens1 tokens2),
        t.absoluteIndex ∉ addedTokenIndexList tokens1 tokens2) := by
  have hold : partOldVals (diffArraysByText tokens1 tokens2) = tokens1 :=
    diffCore_oldVals tokenComparator tokens1 tokens2
  have hnew : partNewVals (diffArraysByText tokens1 tokens2) = tokens2 :=
    diffCore_newVals tokenComparator tokens1 tokens2
  refine ⟨?_, ?_, ?_, ?_⟩
  · intro i hi
    simp only [removedTokenIndexList, List.mem_map] at hi
    obtain ⟨t, ht, rfl⟩ := hi
    exact ⟨t, hold ▸ removedVals_subset_oldVals _ t ht, rfl⟩
  · intro i hi
    simp only [addedTokenIndexList, List.mem_map] at hi
    obtain ⟨t, ht, rfl⟩ := hi
    exact ⟨t, hnew ▸ addedVals_subset_newVals _ t ht, rfl⟩
  · intro hnd t htc hti
    simp only [removedTokenIndexList, List.mem_map] at hti
    obtain ⟨r, hr, habs⟩ := hti
    have htmem : t ∈ tokens1 := hold ▸ commonOldVals_subset_oldVals _ t htc
    have hrmem : r ∈ tokens1 := hold ▸ removedVals_subset_oldVals _ r hr
    have heq : r = t := List.inj_on_of_nodup_map hnd hrmem htmem habs
    subst heq
    have hc1 : 0 < (commonOldVals (diffArraysByText tokens1 tokens2)).count r :=
      List.count_pos_iff.mpr htc
    have hc2 : 0 < (removedVals (diffArraysByText tokens1 tokens2)).count r :=
      List.count_pos_iff.mpr hr
    have hsum := count_commonOld_add_removed (diffArraysByText tokens1 tokens2) r
    have hle : tokens1.count r ≤ 1 :=
      List.nodup_iff_count_le_one.mp (List.Nodup.of_map _ hnd) r
    rw [hold] at hsum
    omega
  · intro hnd t htc hti
    simp only [addedTokenIndexList, List.mem_map] at hti
    obtain ⟨r, hr, habs⟩ := hti
    have htmem : t ∈ tokens2 := hnew ▸ commonNewVals_subset_newVals _ t htc
    have hrmem : r ∈ tokens2 := hnew ▸ addedVals_subset_newVals _ r hr
    have heq : r = t := List.inj_on_of_nodup_map hnd hrmem htmem habs
    subst heq
    have hc1 : 0 < (commonNewVals (diffArraysByText tokens1 tokens2)).count r :=
      List.count_pos_iff.mpr htc
    have hc2 : 0 < (addedVals (diffArraysByText tokens1 tokens2)).count r :=
      List.count_pos_iff.mpr hr
    have hsum := count_commonNew_add_added (diffArraysByText tokens1 tokens2) r
    have hle : tokens2.count r ≤ 1 :=
      List.nodup_iff_count_le_one.mp (List.Nodup.of_map _ hnd) r
    rw [hnew] at hsum
    omega

/-- Witness for the amended C3: on a concrete token pair sharing the word
"hi", the common token's index stays out of the removed set. -/
theorem claim_C3_amended_disjointness_witness :
    (0 : Nat) ∉ removedTokenIndexList demoExtraction.tokens demoExtraction.tokens :=
  (claim_C3_amended_disjointness demoExtraction.tokens demoExtraction.tokens).2.2.1
    (by decide)
    { text := ['h', 'i'], pageIndex := 0, itemIndex := 0, absoluteIndex := 0,
      rect := ⟨0, 0, 1, 1⟩ }
    (by simp [demoExtraction, diffArraysByText, diffCore, tokenComparator,
      commonOldVals])

/-- A response not matching the pending job id leaves the state unchanged. -/
theorem handleMessage_discard (st : AppState) (response : WorkerResponse)
    (h : st.pendingJobId ≠ some response.jobId) : handleMessage st response = st := by
  simp [handleMessage, h]

/-- Accepting a pending response always clears the pending job id. -/
theorem handleMessage_accept_clears_pending (st : AppState)
    (response : WorkerResponse) (h : st.pendingJobId = some response.jobId) :
    (handleMessage st response).pendingJobId = none := by
  cases response <;> simp [handleMessage, h]

/-- C4: a worker response whose job id differs from the pending one is
discarded with no state change at all; in the staleness scenario — job N
submitted, job N+1 submitted before N's result arrives, N's result
arriving after N+1's — the late result of N is a no-op and the visible
state reflects N+1's payload. -/
theorem claim_C4_staleness :
    (∀ (st : AppState) (response : WorkerResponse),
        st.pendingJobId ≠ some response.jobId → handleMessage st response = st) ∧
    (∀ (st : AppState) (payloadN payloadN1 : DiffWorkerPayload),
        handleMessage
            (handleMessage (submitJob (submitJob st))
              (WorkerResponse.result (submittedJobId (submitJob st)) payloadN1))
            (WorkerResponse.result (submittedJobId st) payloadN) =
          handleMessage (submitJob (submitJob st))
            (WorkerResponse.result (submittedJobId (submitJob st)) payloadN1) ∧
        (handleMessage (submitJob (submitJob st))
            (WorkerResponse.result (submittedJobId (submitJob st)) payloadN1)).visible.diffParts =
          payloadN1.textDiff ∧
        (handleMessage (submitJob (submitJob st))
            (WorkerResponse.result (submittedJobId (submitJob st)) payloadN1)).visible.removedTokenIndexes =
          payloadN1.removedTokenIndexes.toFinset ∧
        (handleMessage (submitJob (submitJob st))
            (WorkerResponse.result (submittedJobId (submitJob st)) payloadN1)).visible.addedTokenIndexes =
          payloadN1.addedTokenIndexes.toFinset) := by
  constructor
  · exact handleMessage_discard
  · intro st payloadN payloadN1
    have haccept :
        (submitJob (submitJob st)).pendingJobId =
          some (WorkerResponse.result (submittedJobId (submitJob st)) payloadN1).jobId := by
      simp [submitJob, submittedJobId, WorkerResponse.jobId]
    have hclear :=
      handleMessage_accept_clears_pending (submitJob (submitJob st))
        (WorkerResponse.result (submittedJobId (submitJob st)) payloadN1) haccept
    refine ⟨?_, ?_, ?_, ?_⟩
    · apply handleMessage_discard
      rw [hclear]
      simp
    · simp [handleMessage, haccept, WorkerResponse.jobId]
    · simp [handleMessage, haccept, WorkerResponse.jobId]
    · simp [handleMessage, haccept, WorkerResponse.jobId]

/-- Witness for C4 at a concrete state: a response tagged with job id 99
while job 1 is pending leaves the state untouched. -/
theorem claim_C4_staleness_witness :
    handleMessage demoAppState (WorkerResponse.result 99 emptyPayload) =
      demoAppState :=
  claim_C4_staleness.1 demoAppState _ (by decide)

/-- C5: exactly one terminal event is accepted per job id — once a
response carrying the pending id has been processed, any further response
carrying that same id is discarded unchanged — and a worker-level failure
with no structured payload installs the generic worker-fault error,
clearing the pending id (and is a no-op when nothing is pending). -/
theorem claim_C5_single_terminal :
    (∀ (st : AppState) (first second : WorkerResponse),
        st.pendingJobId = some first.jobId → second.jobId = first.jobId →
        handleMessage (handleMessage st first) second = handleMessage st first) ∧
    (∀ st : AppState, st.pendingJobId ≠ none →
        (handleError st).visible.error = some workerFaultMessage ∧
        (handleError st).pendingJobId = none ∧
        (handleError st).visible.isComparing = false) ∧
    (∀ st : AppState, st.pendingJobId = none → handleError st = st) := by
  refine ⟨?_, ?_, ?_⟩
  · intro st first second hpend hsame
    have hclear := handleMessage_accept_clears_pending st first hpend
    apply handleMessage_discard
    rw [hclear]
    simp
  · intro st h
    simp [handleError, h]
  · intro st h
    simp [handleError, h]

/-- Witness for C5 at a concrete state: after job 1's result is accepted,
a second response for job 1 is discarded; and the worker-level failure on
the same pending state installs the generic fault message. -/
theorem claim_C5_single_terminal_witness :
    handleMessage (handleMessage demoAppState (WorkerResponse.result 1 emptyPayload))
        (WorkerResponse.error 1 "late") =
      handleMessage demoAppState (WorkerResponse.result 1 emptyPayload) ∧
    (handleError demoAppState).visible.error = some workerFaultMessage :=
  ⟨claim_C5_single_terminal.1 demoAppState (WorkerResponse.result 1 emptyPayload)
      (WorkerResponse.error 1 "late") (by decide) (by decide),
    (claim_C5_single_terminal.2.1 demoAppState (by decide)).1⟩

theorem collapseWs_demo : collapseWs ['h', 'i'] = ['h', 'i'] := by decide

theorem intercalate_demo : List.intercalate [' '] [['h', 'i']] = ['h', 'i'] := by
  decide

theorem processItem_demo :
    processItem demoViewport demoItem =
      ItemOutcome.token ['h', 'i'] ⟨0, 0, 1 / 10, 1 / 10⟩ := by
  rw [processItem]
  norm_num [demoItem, demoViewport, collapseWs_demo]
  simp

theorem extract_demoPages :
    extractTextFromPdf demoPages = Except.ok demoOkExtraction := by
  simp [extractTextFromPdf, demoPages, processPages, processItems, processItem_demo,
    demoOkExtraction, intercalate_demo]

/-- C6: extraction fails with the extraction error exactly when zero text
tokens survive after processing all pages; a failing page contributes zero
tokens and never aborts processing of the remaining pages (whether it
fails before or after its viewport is obtained). -/
theorem claim_C6_extraction_error :
    (∀ pages, extractTextFromPdf pages = Except.error noSearchableTextMessage ↔
        (processPages pages 0 0).1 = []) ∧
    (∀ rest pageIndex absoluteIndex,
        processPages (PageSource.failEarly :: rest) pageIndex absoluteIndex =
          processPages rest (pageIndex + 1) absoluteIndex) ∧
    (∀ viewport rest pageIndex absoluteIndex,
        (processPages (PageSource.failLate viewport :: rest) pageIndex absoluteIndex).1 =
          (processPages rest (pageIndex + 1) absoluteIndex).1) := by
  refine ⟨?_, ?_, ?_⟩
  · intro pages
    by_cases h : (processPages pages 0 0).1 = []
    · simp [extractTextFromPdf, h]
    · simp [extractTextFromPdf, List.isEmpty_iff, List.map_eq_nil_iff, h]
  · intro rest pageIndex absoluteIndex
    rw [processPages]
  · intro viewport rest pageIndex absoluteIndex
    rw [processPages]

/-- Witness for C6 at a concrete input: a document whose only page fails
yields the extraction error. -/
theorem claim_C6_extraction_error_witness :
    extractTextFromPdf [PageSource.failEarly] =
      Except.error noSearchableTextMessage :=
  (claim_C6_extraction_error.1 [PageSource.failEarly]).mpr (by decide)

/-- C7: in every successful extraction, the absolute indexes are dense,
zero-based and strictly increasing: the map of `absoluteIndex` over the
token list is exactly `0, 1, ..., length - 1`, so the i-th surviving
token has absolute index i. -/
theorem claim_C7_dense_indexes (pages : List PageSource)
    (extraction : PdfExtraction)
    (h : extractTextFromPdf pages = Except.ok extraction) :
    extraction.tokens.map (fun t => t.absoluteIndex) =
      List.range extraction.tokens.length ∧
    ∀ i (hi : i < extraction.tokens.length),
      (extraction.tokens.get ⟨i, hi⟩).absoluteIndex = i := by
  have htokens : extraction.tokens = (processPages pages 0 0).1 := by
    unfold extractTextFromPdf at h
    split at h
    · cases h
    · cases h
      rfl
  have hmap : extraction.tokens.map (fun t => t.absoluteIndex) =
      List.range extraction.tokens.length := by
    rw [htokens, List.range_eq_range']
    exact processPages_map_absoluteIndex pages 0 0
  refine ⟨hmap, fun i hi => ?_⟩
  have h0 : (extraction.tokens.map (fun t => t.absoluteIndex))[i]? =
      (List.range extraction.tokens.length)[i]? := by rw [hmap]
  rw [List.getElem?_map, List.getElem?_range hi,
    List.getElem?_eq_getElem hi] at h0
  simpa [List.get_eq_getElem] using h0

/-- Witness for C7 at a concrete input: a one-page document with one token. -/
theorem claim_C7_dense_indexes_witness :
    (demoOkExtraction.tokens.map (fun t => t.absoluteIndex) =
        List.range demoOkExtraction.tokens.length) ∧
    ∀ i (hi : i < demoOkExtraction.tokens.length),
      (demoOkExtraction.tokens.get ⟨i, hi⟩).absoluteIndex = i :=
  claim_C7_dense_indexes demoPages demoOkExtraction extract_demoPages

theorem processPages_metrics (pages : List PageSource)
    (pageIndex absoluteIndex : Nat) :
    (processPages pages pageIndex absoluteIndex).2 =
      pages.filterMap pageViewportOf := by
  induction pages generalizing pageIndex absoluteIndex with
  | nil => simp [processPages]
  | cons page rest ih =>
      cases page with
      | failEarly => rw [processPages]; simp [pageViewportOf, ih]
      | failLate viewport => rw [processPages]; simp [pageViewportOf, ih]
      | ok viewport items => rw [processPages]; simp [pageViewportOf, ih]

/-- C9 fails as stated: `pageMetrics.push` runs inside the per-page `try`
after `getPage`/`getViewport`, so a page that fails before its viewport is
obtained contributes no metrics entry. On a two-page document whose first
page fails early, the successful extraction carries only one metrics
entry. -/
theorem claim_C9_counterexample :
    extractTextFromPdf demoPages = Except.ok demoOkExtraction ∧
    demoOkExtraction.pageMetrics.length = 1 ∧
    demoPages.length = 2 :=
  ⟨extract_demoPages, rfl, rfl⟩

/-- C9 amended: in every successful extraction, `pageMetrics` contains
one `{width, height}` entry, in page order, for exactly the pages whose
viewport is obtained — pages that fail during text-content extraction
included — while a page failing before its viewport is obtained
contributes no entry. -/
theorem claim_C9_amended_metrics (pages : List PageSource)
    (extraction : PdfExtraction)
    (h : extractTextFromPdf pages = Except.ok extraction) :
    extraction.pageMetrics = pages.filterMap pageViewportOf := by
  have hmetrics : extraction.pageMetrics = (processPages pages 0 0).2 := by
    unfold extractTextFromPdf at h
    split at h
    · cases h
    · cases h
      rfl
  rw [hmetrics, processPages_metrics]

/-- Witness for the amended C9 at a concrete input. -/
theorem claim_C9_amended_metrics_witness :
    demoOkExtraction.pageMetrics = demoPages.filterMap pageViewportOf :=
  claim_C9_amended_metrics demoPages demoOkExtraction extract_demoPages

end DocCompare
